import Mathlib

/-!
Verification of the blog-platform backend (users / posts / comments with
soft delete, bearer-token authorization pipeline) against its
natural-language specification.

The document store is modelled as in-memory lists of documents; every
Mongo call used by the services is translated to an explicit pure
operation on that state:

* `findById` / `findOne` become `List.find?` on the collection (matching
  the first document whose `_id` field equals the argument — ids are
  unique in the real store, so first-match semantics coincide);
* `find {deletedAt: null, ...}` becomes `List.filter` preserving order;
* `updateOne` / `findByIdAndUpdate` become `updateFirst`, which rewrites
  the first document matching the filter and leaves the rest alone
  (`findByIdAndUpdate` returns the *original* document, which is how the
  services use its result);
* `$push` appends to the end of an array field, `$pull` removes every
  occurrence.

`populate(...)` only resolves referenced ids into display fields of the
returned documents; it never changes which documents a query returns,
which is the only thing the properties below are about, so it is not
modelled.  Timestamps are `Nat`; the current time and freshly generated
ids are passed as explicit arguments where the code calls `new Date()`
or lets the store mint an `_id`.
-/

/-- User document of the `users` collection (src/src/models/user.model.ts).
`password` stores the hash; `select:false` only hides it from query
results and is irrelevant to the properties below. -/
structure UserDoc where
  id : String
  name : String
  email : String
  password : String
  roles : List String
  deletedAt : Option Nat
deriving DecidableEq, Repr

/-- Post document of the `posts` collection (post model in src/unnamed/part_002). -/
structure PostDoc where
  id : String
  title : String
  content : String
  author : String
  genre : String
  comments : List String
  deletedAt : Option Nat
deriving DecidableEq, Repr

/-- Comment document of the `comments` collection (src/src/models/comment.model.ts). -/
structure CommentDoc where
  id : String
  content : String
  author : String
  post : String
  deletedAt : Option Nat
deriving DecidableEq, Repr

/-- The document store: the three collections the services touch. -/
structure Store where
  users : List UserDoc
  posts : List PostDoc
  comments : List CommentDoc
deriving DecidableEq, Repr

/-- Request body for `POST /api/posts` (src/unnamed/part_000, `PostInput`). -/
structure PostInput where
  title : String
  content : String
  author : String
  genre : String
  comments : List String
deriving DecidableEq, Repr

/-- Request body for `POST /api/comments` (`CommentInput`). -/
structure CommentInput where
  content : String
  author : String
  post : String
deriving DecidableEq, Repr

/-- Domain error thrown by the services: `ReferenceError(message)` in the
source, translated by controllers into 400 responses. -/
structure RefErr where
  message : String
deriving DecidableEq, Repr

deriving instance DecidableEq for Except

/-- Updates the first element satisfying `pred` with `f`, leaving the rest
unchanged: the semantics of Mongo `updateOne` / `findByIdAndUpdate`
(these update the single document matching the filter). -/
def updateFirst (l : List α) (pred : α → Bool) (f : α → α) : List α :=
  match l with
  | [] => []
  | x :: xs => if pred x then f x :: xs else x :: updateFirst xs pred f

/-! ## A fragment of the `$regex` pattern language

`PostService.getByGenre` hands the raw genre string to the store as a
case-insensitive regular expression (`$options: 'i'`).  The fragment
modelled here covers patterns built from literal ASCII characters and
the `.` wildcard; every other pattern (any other PCRE metacharacter, or
a non-ASCII character) is rejected by the parser, meaning only that it
is outside the modelled fragment. -/

/-- Token of the modelled pattern fragment: a literal character or the
`.` wildcard. -/
inductive GTok where
  | dot : GTok
  | lit (c : Char) : GTok
deriving DecidableEq, Repr

/-- PCRE metacharacters (plus the braces, written via escapes). -/
def metachar (c : Char) : Bool :=
  c == '\\' || c == '^' || c == '$' || c == '.' || c == '|' || c == '?' ||
  c == '*' || c == '+' || c == '(' || c == ')' || c == '[' || c == ']' ||
  c == '\x7b' || c == '\x7d'

/-- Classifies one pattern character: `.` becomes the wildcard, any
other metacharacter or non-ASCII character makes the pattern fall
outside the modelled fragment. -/
def patStep (c : Char) : Option GTok :=
  if c = '.' then some GTok.dot
  else if metachar c || c.toNat ≥ 128 then none
  else some (GTok.lit c)

/-- Parses a character list of the modelled pattern fragment. -/
def parseToks : List Char → Option (List GTok)
  | [] => some []
  | c :: rest =>
    match patStep c, parseToks rest with
    | some t, some ts => some (t :: ts)
    | _, _ => none

/-- Parses a pattern string of the modelled fragment. -/
def parseSimplePattern (s : String) : Option (List GTok) :=
  parseToks s.data

/-- ASCII-case-folded code point, for the `i` option. -/
def lowerNat (c : Char) : Nat :=
  if 65 ≤ c.toNat && c.toNat ≤ 90 then c.toNat + 32 else c.toNat

/-- Case-insensitive character equality. -/
def charIEq (a b : Char) : Bool := lowerNat a == lowerNat b

/-- Does a single token match a single character?  `.` matches anything
except a newline. -/
def tokMatch : GTok → Char → Bool
  | GTok.dot, c => c != '\n'
  | GTok.lit a, c => charIEq a c

/-- Does the token list match this exact window of characters
(position by position, same length)? -/
def gMatch : List GTok → List Char → Bool
  | [], [] => true
  | t :: ts, c :: cs => tokMatch t c && gMatch ts cs
  | _, _ => false

/-- Unanchored matching: the pattern matches somewhere in the target. -/
def searchMatch (toks : List GTok) (cs : List Char) : Bool :=
  (List.range (cs.length + 1)).any fun i => gMatch toks ((cs.drop i).take toks.length)

/-- Case-insensitive window equality (same length, pointwise). -/
def listIEq : List Char → List Char → Bool
  | [], [] => true
  | a :: as, b :: bs => charIEq a b && listIEq as bs
  | _, _ => false

/-- Written from the SPEC's words for comparison with the code's regex
matching: "case-insensitive substring match" — `needle` occurs as a
contiguous substring of `hay` up to ASCII case. -/
def substringCI (needle hay : String) : Bool :=
  (List.range (hay.data.length + 1)).any fun i =>
    listIEq needle.data ((hay.data.drop i).take needle.data.length)

/-! ## Resource services

`PostService` is translated from src/unnamed/part_005 and
`CommentService` from the class at the end of
src/src/tests/services/user.service.test.ts (lines 1465-1537).
`UserService`'s source file is absent from the provided sources; its
`getAll` / `getById` / `delete` are reconstructed from the unit tests in
src/src/tests/services/user.service.test.ts, which pin the exact store
calls (`find {deletedAt: null}`, plain `findById`, and
`findByIdAndUpdate(id, {deletedAt})`). -/

/-- PostService.create: checks the author User exists with a plain
`findById` (no `deletedAt` filter), throwing `ReferenceError("User not
found")` when absent, then persists the new post. -/
def PostService.create (s : Store) (input : PostInput) (newId : String) :
    Store × Except RefErr PostDoc :=
  match s.users.find? (fun u => u.id == input.author) with
  | none => (s, .error ⟨"User not found"⟩)
  | some _ =>
    let created : PostDoc :=
      { id := newId, title := input.title, content := input.content,
        author := input.author, genre := input.genre,
        comments := input.comments, deletedAt := none }
    ({ s with posts := s.posts ++ [created] }, .ok created)

/-- PostService.getAll: `PostModel.find({ deletedAt: null })`. -/
def PostService.getAll (s : Store) : List PostDoc :=
  s.posts.filter fun p => p.deletedAt == none

/-- PostService.getById: plain `PostModel.findById(id)` — note there is
no `deletedAt` filter here. -/
def PostService.getById (s : Store) (i : String) : Option PostDoc :=
  s.posts.find? fun p => p.id == i

/-- PostService.delete: `findByIdAndUpdate(id, { deletedAt: new Date() })`,
returning whether a document with that id was found (regardless of any
previous soft deletion). -/
def PostService.delete (s : Store) (i : String) (now : Nat) : Store × Bool :=
  match s.posts.find? (fun p => p.id == i) with
  | none => (s, false)
  | some _ =>
    let posts1 := updateFirst s.posts (fun p => p.id == i)
      fun p => { p with deletedAt := some now }
    ({ s with posts := posts1 }, true)

/-- PostService.getByGenre builds the filter
`{ genre: { $regex: genre, $options: 'i' }, deletedAt: null }`: the raw
`genre` string is used as a case-insensitive regular-expression PATTERN,
matched anywhere in the field.  The pattern language is modelled below
(`parseSimplePattern`) for patterns made of literal ASCII characters and
the `.` wildcard; `none` means the pattern falls outside the modelled
fragment, not that the code errors. -/
def PostService.getByGenre (s : Store) (genre : String) : Option (List PostDoc) :=
  (parseSimplePattern genre).map fun toks =>
    s.posts.filter fun p => searchMatch toks p.genre.data && p.deletedAt == none

/-- UserService.getAll, from its unit tests: `UserModel.find({ deletedAt: null })`. -/
def UserService.getAll (s : Store) : List UserDoc :=
  s.users.filter fun u => u.deletedAt == none

/-- UserService.getById, from its unit tests: plain `UserModel.findById(id)`. -/
def UserService.getById (s : Store) (i : String) : Option UserDoc :=
  s.users.find? fun u => u.id == i

/-- UserService.findByEmail, from its unit tests:
`UserModel.findOne({ email }).select(...)`; the `select` argument only
controls visibility of the password field and is not modelled. -/
def UserService.findByEmail (s : Store) (email : String) : Option UserDoc :=
  s.users.find? fun u => u.email == email

/-- UserService.delete, from its unit tests:
`UserModel.findByIdAndUpdate(userId, { deletedAt: new Date() })`, matching
by id only and returning whether a document with that id was found. -/
def UserService.delete (s : Store) (i : String) (now : Nat) : Store × Bool :=
  match s.users.find? (fun u => u.id == i) with
  | none => (s, false)
  | some _ =>
    let users1 := updateFirst s.users (fun u => u.id == i)
      fun u => { u with deletedAt := some now }
    ({ s with users := users1 }, true)

/-- CommentService.create: plain `findById` existence checks for author
User and parent Post (user first — when both are absent the error is
"User not found"), then persists the comment and pushes its id onto the
parent post with filter `{ _id: post, deletedAt: null }`. -/
def CommentService.create (s : Store) (input : CommentInput) (newId : String) :
    Store × Except RefErr CommentDoc :=
  let userExist := s.users.find? fun u => u.id == input.author
  let postExist := s.posts.find? fun p => p.id == input.post
  match userExist with
  | none => (s, .error ⟨"User not found"⟩)
  | some _ =>
    match postExist with
    | none => (s, .error ⟨"Post not found"⟩)
    | some _ =>
      let created : CommentDoc :=
        { id := newId, content := input.content, author := input.author,
          post := input.post, deletedAt := none }
      let s1 : Store := { s with comments := s.comments ++ [created] }
      let posts2 := updateFirst s1.posts
        (fun p => p.id == input.post && p.deletedAt == none)
        fun p => { p with comments := p.comments ++ [created.id] }
      let s2 : Store := { s1 with posts := posts2 }
      (s2, .ok created)

/-- CommentService.getAll: `CommentModel.find({ deletedAt: null })`. -/
def CommentService.getAll (s : Store) : List CommentDoc :=
  s.comments.filter fun c => c.deletedAt == none

/-- CommentService.getById: plain `CommentModel.findById(id)` — no
`deletedAt` filter. -/
def CommentService.getById (s : Store) (i : String) : Option CommentDoc :=
  s.comments.find? fun c => c.id == i

/-- CommentService.delete: `findByIdAndUpdate(id, { deletedAt: new Date() })`
(matching by id only, returning the original document), then if found,
`$pull` of the comment id from its parent post's `comments` array. -/
def CommentService.delete (s : Store) (i : String) (now : Nat) : Store × Bool :=
  match s.comments.find? (fun c => c.id == i) with
  | none => (s, false)
  | some c =>
    let comments1 := updateFirst s.comments (fun d => d.id == i)
      fun d => { d with deletedAt := some now }
    let s1 : Store := { s with comments := comments1 }
    let posts2 := updateFirst s1.posts (fun p => p.id == c.post)
      fun p => { p with comments := p.comments.filter fun x => x ≠ c.id }
    let s2 : Store := { s1 with posts := posts2 }
    (s2, true)

/-! ## Token verifier (authMiddleware)

The middleware's source file is absent from the provided sources; the
definition below is reconstructed from its unit tests
(src/unnamed/part_002), which pin its behavior on every relevant input:
the token is the second component of the `Authorization` header split on
a single space (the scheme word is never inspected), a falsy token gives
401 "Access denied. No token provided." without calling `jwt.verify`,
and otherwise `jwt.verify` is called with exactly that component
(any throw giving 403 "Invalid token.").  To make "verify was invoked"
observable, the model returns alongside the outcome the list of
arguments passed to `verify`. -/

/-- The dynamic value found in a decoded token's `roles` field (or a
request principal's): a proper array, JSON null, or some non-array
value. -/
inductive RolesValue where
  | null : RolesValue
  | notArray (raw : String) : RolesValue
  | arr (roles : List String) : RolesValue
deriving DecidableEq, Repr

/-- The principal attached to the request after verification: the decoded
payload's `id` and `roles`. -/
structure Principal where
  id : Option String
  roles : RolesValue
deriving DecidableEq, Repr

/-- JavaScript `String.prototype.split(" ")` on a character list: split
on every single space, keeping empty components. -/
def jsSplit (cs : List Char) : List (List Char) :=
  match cs with
  | [] => [[]]
  | c :: rest =>
    let r := jsSplit rest
    if c = ' ' then [] :: r
    else
      match r with
      | [] => [[c]]
      | g :: gs => (c :: g) :: gs

/-- `authHeader.split(" ")[1]` followed by the JS falsy check `!token`:
the extracted bearer token, or `none` for every shape the middleware
rejects as missing. -/
def extractToken (header : Option String) : Option String :=
  match header with
  | none => none
  | some h =>
    match (jsSplit h.data).get? 1 with
    | none => none
    | some t => if t.isEmpty then none else some (String.mk t)

/-- Outcome of the token verifier. -/
inductive AuthOutcome where
  | missing : AuthOutcome
  | invalid : AuthOutcome
  | success (user : Principal) : AuthOutcome
deriving DecidableEq, Repr

/-- Modelled from the spec and the middleware's unit tests (the
middleware source file is missing from the sources): extract the token,
401 when falsy, otherwise call `verify` (`none` models a throw).  The
second component records every argument passed to `verify`. -/
def authMiddleware (verify : String → Option Principal) (header : Option String) :
    AuthOutcome × List String :=
  match extractToken header with
  | none => (.missing, [])
  | some t =>
    match verify t with
    | some p => (.success p, [t])
    | none => (.invalid, [t])

/-! ## Role gate (checkRole) -/

/-- A request as the gate sees it: the optional principal attached by the
token verifier, plus the rest of the request (opaque payload `α`). -/
structure GateReq (α : Type) where
  user : Option Principal
  payload : α
deriving DecidableEq, Repr

/-- Outcome of the role gate: an HTTP rejection, or the request forwarded
to the downstream handler. -/
inductive GateOutcome (α : Type) where
  | reject (status : Nat) (message : String) : GateOutcome α
  | forward (req : GateReq α) : GateOutcome α
deriving DecidableEq, Repr

/-- Number of times the downstream handler (`next`) is invoked. -/
def nextCalls : GateOutcome α → Nat
  | .forward _ => 1
  | .reject _ _ => 0

/-- Modelled from the spec (the middleware source file is missing from
the sources; its unit tests in
src/src/tests/middlewares/preAuthorize.middleware.test.ts agree):
absent principal, null roles, or roles of the wrong shape reject with
403 "Access denied. No roles found."; roles present but lacking the
required role reject with 403 "Access denied."; otherwise the request is
forwarded unmodified. -/
def checkRole (required : String) (req : GateReq α) : GateOutcome α :=
  match req.user with
  | none => .reject 403 "Access denied. No roles found."
  | some u =>
    match u.roles with
    | .arr rs => if required ∈ rs then .forward req else .reject 403 "Access denied."
    | _ => .reject 403 "Access denied. No roles found."

/-! ## Field validator (handleValidationErrors) -/

/-- A raw violation item as reported by the validation library (its
`type`, `path`, `msg` and `value` properties, each possibly absent). -/
structure ValErr where
  vtype : Option String
  path : Option String
  msg : Option String
  value : Option String
deriving DecidableEq, Repr

/-- An entry of the `errors` array in the 400 response body. -/
structure FieldError where
  field : Option String
  message : Option String
  value : Option String
deriving DecidableEq, Repr

/-- Formatting of one violation, reconstructed from the middleware's unit
tests (src/unnamed/part_003): a `field`-typed violation keeps its path
and value, anything else gets field "unknown" and no value. -/
def formatError (e : ValErr) : FieldError :=
  if e.vtype == some "field" then
    { field := e.path, message := e.msg, value := e.value }
  else
    { field := some "unknown", message := e.msg, value := none }

/-- Outcome of the field validator: pass the request downstream, or
short-circuit with an HTTP response. -/
inductive ValOutcome (α : Type) where
  | next (req : α) : ValOutcome α
  | respond (status : Nat) (message : String) (errors : List FieldError) : ValOutcome α
deriving DecidableEq, Repr

/-- Modelled from the spec (the middleware source file is missing from
the sources; its unit tests agree): `errors` is the ordered violation
list the validation library collected for the declared rules; when it is
empty the request proceeds unmodified, otherwise all violations are
formatted, in order, into a 400 "Validation errors" response. -/
def handleValidationErrors (errors : List ValErr) (req : α) : ValOutcome α :=
  if errors.isEmpty then .next req
  else .respond 400 "Validation errors" (errors.map formatError)

/-! ## Auth service

The service source file is missing from the sources; `login` and
`generateToken` are modelled from the spec, and their unit tests
(src/src/tests/services/auth.service.test.ts) agree on every branch.
The password comparison (`bcrypt.compare`) and the token signer
(`jwt.sign`) are external primitives, passed in as functions. -/

/-- The payload embedded in an issued token. -/
structure TokenPayload where
  id : String
  roles : List String
deriving DecidableEq, Repr

/-- The value returned by a successful login. -/
structure LoginOutput where
  id : String
  roles : List String
  token : String
deriving DecidableEq, Repr

/-- JavaScript `process.env.JWT_SECRET || 'defaultSecret'`: an unset or
empty environment variable falls back to the default. -/
def secretOf (envSecret : Option String) : String :=
  match envSecret with
  | none => "defaultSecret"
  | some sec => if sec.isEmpty then "defaultSecret" else sec

/-- Modelled from the spec: `generateToken(user)` signs `{ id, roles }`
with the configured (or default) secret and a 1-hour expiry
(`expiresIn: '1h'`). -/
def AuthService.generateToken (sign : TokenPayload → String → String → String)
    (envSecret : Option String) (u : UserDoc) : String :=
  sign { id := u.id, roles := u.roles } (secretOf envSecret) "1h"

/-- Modelled from the spec: `login(email, password)` looks the user up by
email (password hash included), throws `ReferenceError("Not Authorized")`
when absent, compares the password with the stored hash via the one-way
`cmp` primitive, throws the identical error on mismatch, and on match
returns `{ id, roles, token }` with a freshly signed token. -/
def AuthService.login (cmp : String → String → Bool)
    (sign : TokenPayload → String → String → String) (envSecret : Option String)
    (s : Store) (email pw : String) : Except RefErr LoginOutput :=
  match UserService.findByEmail s email with
  | none => .error ⟨"Not Authorized"⟩
  | some u =>
    if cmp pw u.password then
      .ok { id := u.id, roles := u.roles,
            token := AuthService.generateToken sign envSecret u }
    else
      .error ⟨"Not Authorized"⟩

/-! ## Controllers (create; sources src/unnamed/part_007 and part_008)

The controllers' ownership check runs before the service call; to make
"the service is never invoked" observable, the service is a
parameter, so the theorems can quantify over it. -/

/-- The `req.user` object as the controllers read it: only its (possibly
undefined) `id` matters for the ownership check. -/
structure ReqUser where
  id : Option String
deriving DecidableEq, Repr

/-- HTTP response of a create controller: a JSON message body or the
created entity. -/
inductive CtrlResp (α : Type) where
  | msg (status : Nat) (message : String) : CtrlResp α
  | payload (status : Nat) (doc : α) : CtrlResp α
deriving DecidableEq, Repr

/-- PostController.create: 403 `{message: "Author mismatch"}` when no
principal is attached or its id differs from the body's `author`
(JS !== , so an undefined id mismatches every author); otherwise
delegates to the service, mapping `ReferenceError` to 400 "User not
found" and success to 201 with the entity. -/
def PostController.create
    (svc : Store → PostInput → String → Store × Except RefErr PostDoc)
    (s : Store) (user : Option ReqUser) (body : PostInput) (newId : String) :
    Store × CtrlResp PostDoc :=
  match user with
  | none => (s, .msg 403 "Author mismatch")
  | some u =>
    if u.id ≠ some body.author then (s, .msg 403 "Author mismatch")
    else
      match svc s body newId with
      | (s1, .ok created) => (s1, .payload 201 created)
      | (s1, .error _) => (s1, .msg 400 "User not found")

/-- CommentController.create: the same ownership check against the
comment body's `author`, then delegation to the comment service. -/
def CommentController.create
    (svc : Store → CommentInput → String → Store × Except RefErr CommentDoc)
    (s : Store) (user : Option ReqUser) (body : CommentInput) (newId : String) :
    Store × CtrlResp CommentDoc :=
  match user with
  | none => (s, .msg 403 "Author mismatch")
  | some u =>
    if u.id ≠ some body.author then (s, .msg 403 "Author mismatch")
    else
      match svc s body newId with
      | (s1, .ok created) => (s1, .payload 201 created)
      | (s1, .error _) => (s1, .msg 400 "User not found")

/-! ## Concrete documents and stores used by witnesses and counterexamples -/

/-- A live (non-deleted) user. -/
def demoUser : UserDoc :=
  { id := "u1", name := "Ana", email := "ana@demo.com", password := "h",
    roles := ["user"], deletedAt := none }

/-- A soft-deleted post. -/
def delPost : PostDoc :=
  { id := "p1", title := "T", content := "B", author := "u1", genre := "tech",
    comments := [], deletedAt := some 5 }

/-- Store with one live user and one soft-deleted post. -/
def delStore : Store := { users := [demoUser], posts := [delPost], comments := [] }

/-- A live comment attached to post `p2`. -/
def liveComment : CommentDoc :=
  { id := "c1", content := "hey", author := "u1", post := "p2", deletedAt := none }

/-- The live parent post of `c1`, listing it. -/
def parentPost : PostDoc :=
  { id := "p2", title := "T2", content := "B2", author := "u1", genre := "sci",
    comments := ["c1"], deletedAt := none }

/-- Store for the delete-twice scenario. -/
def demoStore2 : Store :=
  { users := [demoUser], posts := [parentPost], comments := [liveComment] }

/-- A soft-deleted user. -/
def delUser : UserDoc :=
  { id := "u2", name := "Bo", email := "bo@demo.com", password := "h2",
    roles := ["user"], deletedAt := some 3 }

/-- A live post authored by `u2`. -/
def livePost : PostDoc :=
  { id := "p3", title := "T3", content := "B3", author := "u2", genre := "art",
    comments := [], deletedAt := none }

/-- Store with a soft-deleted user and a live post. -/
def demoStore3 : Store := { users := [delUser], posts := [livePost], comments := [] }

/-- A soft-deleted parent post that already lists a comment. -/
def delParent : PostDoc :=
  { id := "p5", title := "T5", content := "B5", author := "u1", genre := "old",
    comments := ["c0"], deletedAt := some 9 }

/-- Store with a live user and a soft-deleted parent post. -/
def demoStore10 : Store := { users := [demoUser], posts := [delParent], comments := [] }

/-- A live post with genre "xyz". -/
def xyzPost : PostDoc :=
  { id := "p4", title := "X", content := "B4", author := "u1", genre := "xyz",
    comments := [], deletedAt := none }

/-- Store for the genre-pattern counterexample. -/
def xyzStore : Store := { users := [], posts := [xyzPost], comments := [] }

/-- The empty store. -/
def emptyStore : Store := { users := [], posts := [], comments := [] }

/-- A request carrying a principal holding both roles. -/
def demoGateReq : GateReq Nat :=
  { user := some { id := some "u1", roles := .arr ["user", "admin"] }, payload := 0 }

/-- A field-typed violation item. -/
def demoValErr : ValErr :=
  { vtype := some "field", path := some "email",
    msg := some "Email is required", value := some "" }

/-! ## Helper lemmas -/

theorem updateFirst_of_all_false {l : List α} {pred : α → Bool} {f : α → α}
    (h : ∀ x ∈ l, pred x = false) : updateFirst l pred f = l := by
  induction l with
  | nil => rfl
  | cons x xs ih =>
    have hx := h x (List.mem_cons_self x xs)
    simp [updateFirst, hx, ih fun y hy => h y (List.mem_cons_of_mem x hy)]

theorem updateFirst_mem_of_find? {l : List α} {pred : α → Bool} {f : α → α} {a : α}
    (h : l.find? pred = some a) : f a ∈ updateFirst l pred f := by
  induction l with
  | nil => simp [List.find?] at h
  | cons x xs ih =>
    by_cases hx : pred x
    · rw [List.find?_cons_of_pos _ hx] at h
      cases h
      simp [updateFirst, hx]
    · rw [List.find?_cons_of_neg _ (by simpa using hx)] at h
      simp only [updateFirst, if_neg hx]
      exact List.mem_cons_of_mem x (ih h)

theorem parseToks_all_lit : ∀ {cs : List Char} {toks : List GTok},
    parseToks cs = some toks → (cs.all fun c => !metachar c) = true →
    toks = cs.map GTok.lit := by
  intro cs
  induction cs with
  | nil =>
    intro toks h _
    simp [parseToks] at h
    simp [h.symm]
  | cons c rest ih =>
    intro toks h hm
    simp only [List.all_cons, Bool.and_eq_true, Bool.not_eq_true'] at hm
    obtain ⟨hmc, hmr⟩ := hm
    have hdot : ¬ c = '.' := by
      intro hc
      rw [hc] at hmc
      simp [metachar] at hmc
    by_cases hascii : 128 ≤ c.toNat
    · have hstep : patStep c = none := by
        simp [patStep, hdot, hmc, hascii]
      simp [parseToks, hstep] at h
    · have hstep : patStep c = some (GTok.lit c) := by
        simp [patStep, hdot, hmc, hascii]
      cases hr : parseToks rest with
      | none => simp [parseToks, hstep, hr] at h
      | some ts =>
        simp only [parseToks, hstep, hr, Option.some.injEq] at h
        rw [← h]
        simp [ih hr hmr]

theorem gMatch_map_lit : ∀ (n w : List Char),
    gMatch (n.map GTok.lit) w = listIEq n w := by
  intro n
  induction n with
  | nil => intro w; cases w <;> rfl
  | cons a as ih =>
    intro w
    cases w with
    | nil => rfl
    | cons b bs => simp [gMatch, listIEq, tokMatch, ih]

theorem searchMatch_map_lit (n : List Char) (hay : String) :
    searchMatch (n.map GTok.lit) hay.data = substringCI (String.mk n) hay := by
  simp [searchMatch, substringCI, gMatch_map_lit]

/-! ## C1 — soft-deleted entities and read queries -/

/-- C1 (amended): for User, Post and Comment alike, `getAll` returns only
entities with `deletedAt == null`; `getById`, however, performs a plain
unfiltered `findById`: it returns `null` exactly when no entity with the
given id exists at all, and returns a soft-deleted entity rather than
`null`. -/
theorem C1_soft_delete_reads (s : Store) (i : String) :
    (∀ u ∈ UserService.getAll s, u.deletedAt = none) ∧
    (∀ p ∈ PostService.getAll s, p.deletedAt = none) ∧
    (∀ c ∈ CommentService.getAll s, c.deletedAt = none) ∧
    (UserService.getById s i = none ↔ ∀ u ∈ s.users, u.id ≠ i) ∧
    (PostService.getById s i = none ↔ ∀ p ∈ s.posts, p.id ≠ i) ∧
    (CommentService.getById s i = none ↔ ∀ c ∈ s.comments, c.id ≠ i) := by
  refine ⟨?_, ?_, ?_, ?_, ?_, ?_⟩
  · intro u hu
    simp only [UserService.getAll, List.mem_filter, beq_iff_eq] at hu
    exact hu.2
  · intro p hp
    simp only [PostService.getAll, List.mem_filter, beq_iff_eq] at hp
    exact hp.2
  · intro c hc
    simp only [CommentService.getAll, List.mem_filter, beq_iff_eq] at hc
    exact hc.2
  · simp [UserService.getById, List.find?_eq_none]
  · simp [PostService.getById, List.find?_eq_none]
  · simp [CommentService.getById, List.find?_eq_none]

/-- Witness for C1 at a concrete store: the live user is listed by
`getAll`, and `getById` of an id nobody has is `null`. -/
theorem C1_soft_delete_reads_witness :
    demoUser.deletedAt = none ∧ PostService.getById delStore "nope" = none := by
  have h := C1_soft_delete_reads delStore "nope"
  exact ⟨h.1 demoUser (by decide), h.2.2.2.2.1.mpr (by decide)⟩

/-- Counterexample to C1 as stated: post `p1` of `delStore` is
soft-deleted, `getAll` excludes it, yet `getById "p1"` returns the
entity instead of `null`. -/
theorem C1_getById_counterexample :
    delPost.deletedAt = some 5 ∧
    PostService.getAll delStore = [] ∧
    PostService.getById delStore "p1" = some delPost := by decide

/-! ## C2 — delete return value and delete-twice -/

/-- C2 (amended): for User, Post and Comment alike, `delete(id)` returns
`true` exactly when an entity with that id exists in the store — even
when it was already soft-deleted — and `false` only when no entity with
the id exists; a found entity gets its `deletedAt` set to the current
time.  Deleting the same Comment id twice therefore returns `true`
(HTTP 204) on both calls, not 404 on the second. -/
theorem C2_delete_found_iff (s : Store) (i : String) (now : Nat) :
    ((UserService.delete s i now).2 = true ↔ ∃ u ∈ s.users, u.id = i) ∧
    ((PostService.delete s i now).2 = true ↔ ∃ p ∈ s.posts, p.id = i) ∧
    ((CommentService.delete s i now).2 = true ↔ ∃ c ∈ s.comments, c.id = i) ∧
    (∀ u, s.users.find? (fun d => d.id == i) = some u →
      ∃ d ∈ (UserService.delete s i now).1.users,
        d.id = i ∧ d.deletedAt = some now) ∧
    (∀ p, s.posts.find? (fun d => d.id == i) = some p →
      ∃ d ∈ (PostService.delete s i now).1.posts,
        d.id = i ∧ d.deletedAt = some now) ∧
    (∀ c, s.comments.find? (fun d => d.id == i) = some c →
      ∃ d ∈ (CommentService.delete s i now).1.comments,
        d.id = i ∧ d.deletedAt = some now) := by
  refine ⟨⟨?_, ?_⟩, ⟨?_, ?_⟩, ⟨?_, ?_⟩, ?_, ?_, ?_⟩
  · intro h
    cases hf : s.users.find? (fun d => d.id == i) with
    | none => simp [UserService.delete, hf] at h
    | some u =>
      exact ⟨u, List.mem_of_find?_eq_some hf, by simpa using List.find?_some hf⟩
  · rintro ⟨u, hu, hid⟩
    cases hf : s.users.find? (fun d => d.id == i) with
    | none =>
      have := List.find?_eq_none.mp hf u hu
      simp [hid] at this
    | some d => simp [UserService.delete, hf]
  · intro h
    cases hf : s.posts.find? (fun d => d.id == i) with
    | none => simp [PostService.delete, hf] at h
    | some p =>
      exact ⟨p, List.mem_of_find?_eq_some hf, by simpa using List.find?_some hf⟩
  · rintro ⟨p, hp, hid⟩
    cases hf : s.posts.find? (fun d => d.id == i) with
    | none =>
      have := List.find?_eq_none.mp hf p hp
      simp [hid] at this
    | some d => simp [PostService.delete, hf]
  · intro h
    cases hf : s.comments.find? (fun d => d.id == i) with
    | none => simp [CommentService.delete, hf] at h
    | some c =>
      exact ⟨c, List.mem_of_find?_eq_some hf, by simpa using List.find?_some hf⟩
  · rintro ⟨c, hc, hid⟩
    cases hf : s.comments.find? (fun d => d.id == i) with
    | none =>
      have := List.find?_eq_none.mp hf c hc
      simp [hid] at this
    | some d => simp [CommentService.delete, hf]
  · intro u hf
    refine ⟨{ u with deletedAt := some now }, ?_, ?_, rfl⟩
    · simp only [UserService.delete, hf]
      exact updateFirst_mem_of_find? hf
    · simpa using List.find?_some hf
  · intro p hf
    refine ⟨{ p with deletedAt := some now }, ?_, ?_, rfl⟩
    · simp only [PostService.delete, hf]
      exact updateFirst_mem_of_find? hf
    · simpa using List.find?_some hf
  · intro c hf
    refine ⟨{ c with deletedAt := some now }, ?_, ?_, rfl⟩
    · simp only [CommentService.delete, hf]
      exact updateFirst_mem_of_find? hf
    · simpa using List.find?_some hf

/-- Witness for C2: deleting comment `c1` marks it deleted at the given
time, and deleting the already-soft-deleted post `p1` still returns
`true`. -/
theorem C2_delete_found_iff_witness :
    (∃ d ∈ (CommentService.delete demoStore2 "c1" 7).1.comments,
      d.id = "c1" ∧ d.deletedAt = some 7) ∧
    (PostService.delete delStore "p1" 8).2 = true := by
  constructor
  · exact (C2_delete_found_iff demoStore2 "c1" 7).2.2.2.2.2 liveComment (by decide)
  · exact (C2_delete_found_iff delStore "p1" 8).2.1.mpr
      ⟨delPost, by decide, by decide⟩

/-- Counterexample to C2 as stated: deleting comment `c1` twice returns
`true` both times (the second call would be HTTP 204, not 404), because
`findByIdAndUpdate` matches by id only, ignoring the previous soft
deletion. -/
theorem C2_delete_twice_counterexample :
    (CommentService.delete demoStore2 "c1" 1).2 = true ∧
    (CommentService.delete (CommentService.delete demoStore2 "c1" 1).1 "c1" 2).2
      = true := by decide

/-! ## C3 — reference checks on create -/

/-- C3 (amended): `PostService.create` and `CommentService.create` fail
with `ReferenceNotFound` exactly when a referenced entity (author User,
and for comments the parent Post) is missing from the store — the plain
`findById` existence checks do NOT exclude soft-deleted documents — and
on such a failure no record is created and no store collection is
mutated. -/
theorem C3_create_reference_checks (s : Store) (pin : PostInput)
    (cin : CommentInput) (pid cid : String) :
    ((∃ e, (PostService.create s pin pid).2 = .error e) ↔
      s.users.find? (fun u => u.id == pin.author) = none) ∧
    (s.users.find? (fun u => u.id == pin.author) = none →
      PostService.create s pin pid = (s, .error ⟨"User not found"⟩)) ∧
    ((∃ e, (CommentService.create s cin cid).2 = .error e) ↔
      (s.users.find? (fun u => u.id == cin.author) = none ∨
        s.posts.find? (fun p => p.id == cin.post) = none)) ∧
    ((s.users.find? (fun u => u.id == cin.author) = none ∨
        s.posts.find? (fun p => p.id == cin.post) = none) →
      (CommentService.create s cin cid).1 = s) := by
  refine ⟨?_, ?_, ?_, ?_⟩
  · cases hu : s.users.find? (fun u => u.id == pin.author) with
    | none => simp [PostService.create, hu]
    | some u0 => simp [PostService.create, hu]
  · intro hu
    simp [PostService.create, hu]
  · cases hu : s.users.find? (fun u => u.id == cin.author) with
    | none => simp [CommentService.create, hu]
    | some u0 =>
      cases hp : s.posts.find? (fun p => p.id == cin.post) with
      | none => simp [CommentService.create, hu, hp]
      | some p0 => simp [CommentService.create, hu, hp]
  · rintro (hu | hp)
    · simp [CommentService.create, hu]
    · cases hu : s.users.find? (fun u => u.id == cin.author) with
      | none => simp [CommentService.create, hu]
      | some u0 => simp [CommentService.create, hu, hp]

/-- Witness for C3: creating a comment in the empty store fails and
leaves the store untouched. -/
theorem C3_create_reference_checks_witness :
    (CommentService.create emptyStore ⟨"x", "u9", "p9"⟩ "c9").1 = emptyStore :=
  (C3_create_reference_checks emptyStore ⟨"t", "b", "u9", "g", []⟩
    ⟨"x", "u9", "p9"⟩ "p8" "c9").2.2.2 (Or.inl (by decide))

/-- Counterexample to C3 as stated: the author `u2` of `demoStore3` is
soft-deleted, yet `CommentService.create` succeeds instead of failing
with `ReferenceNotFound`. -/
theorem C3_soft_deleted_ref_counterexample :
    delUser.deletedAt = some 3 ∧
    (CommentService.create demoStore3 ⟨"hola", "u2", "p3"⟩ "c7").2 =
      .ok ⟨"c7", "hola", "u2", "p3", none⟩ := by decide

/-! ## C10 — comment creation under a soft-deleted parent post -/

/-- C10: when the author exists and the parent post exists in the store
but is soft-deleted (every post with that id has non-null `deletedAt`),
`CommentService.create` does not fail: the plain `findById` checks pass,
the comment is persisted and returned, but the `$push` onto the parent
is filtered on `deletedAt: null` and does not happen — the posts
collection is unchanged, so the persisted comment is never listed by its
parent. -/
theorem C10_deleted_parent_orphan (s : Store) (input : CommentInput)
    (newId : String) (u : UserDoc) (p : PostDoc)
    (hu : s.users.find? (fun x => x.id == input.author) = some u)
    (hp : s.posts.find? (fun x => x.id == input.post) = some p)
    (hdel : ∀ q ∈ s.posts, q.id = input.post → q.deletedAt ≠ none) :
    CommentService.create s input newId =
      ({ s with comments :=
          s.comments ++ [⟨newId, input.content, input.author, input.post, none⟩] },
       .ok ⟨newId, input.content, input.author, input.post, none⟩) := by
  have hall : ∀ q ∈ s.posts, (q.id == input.post && q.deletedAt == none) = false := by
    intro q hq
    by_cases h : q.id = input.post
    · have hne := hdel q hq h
      cases hqd : q.deletedAt with
      | none => exact absurd hqd hne
      | some t => simp [h, hqd]
    · simp [h]
  simp [CommentService.create, hu, hp, updateFirst_of_all_false hall]

/-- Witness for C10: creating a comment under the soft-deleted post `p5`
persists the comment while leaving the posts collection unchanged. -/
theorem C10_deleted_parent_orphan_witness :
    (CommentService.create demoStore10 ⟨"hi", "u1", "p5"⟩ "c5").1.posts =
      demoStore10.posts ∧
    (CommentService.create demoStore10 ⟨"hi", "u1", "p5"⟩ "c5").2 =
      .ok ⟨"c5", "hi", "u1", "p5", none⟩ := by
  have h := C10_deleted_parent_orphan demoStore10 ⟨"hi", "u1", "p5"⟩ "c5"
    demoUser delParent (by decide) (by decide) (by decide)
  rw [h]
  exact ⟨rfl, rfl⟩

/-! ## C4 — token extraction in the auth middleware -/

/-- C4 (amended): a missing header, the empty string, "Bearer" alone and
"Bearer " with only trailing space all fail as MissingToken (401)
without the token library's verify ever being invoked — as does every
header whose space-split second component is empty or absent; but the
scheme word is never inspected: any header with a non-empty second
space-separated component (including a non-Bearer scheme such as
"Basic user:password") has exactly that component passed to verify. -/
theorem C4_token_extraction (verify : String → Option Principal)
    (h t : String) :
    authMiddleware verify none = (.missing, []) ∧
    authMiddleware verify (some "") = (.missing, []) ∧
    authMiddleware verify (some "Bearer") = (.missing, []) ∧
    authMiddleware verify (some "Bearer ") = (.missing, []) ∧
    (extractToken (some h) = none → authMiddleware verify (some h) = (.missing, [])) ∧
    (extractToken (some h) = some t → (authMiddleware verify (some h)).2 = [t]) := by
  refine ⟨rfl, ?_, ?_, ?_, ?_, ?_⟩
  · have hx : extractToken (some "") = none := by decide
    simp [authMiddleware, hx]
  · have hx : extractToken (some "Bearer") = none := by decide
    simp [authMiddleware, hx]
  · have hx : extractToken (some "Bearer ") = none := by decide
    simp [authMiddleware, hx]
  · intro hx
    simp [authMiddleware, hx]
  · intro hx
    cases hv : verify t with
    | none => simp [authMiddleware, hx, hv]
    | some p => simp [authMiddleware, hx, hv]

/-- Witness for C4: the lowercase "bearer tok" header is not rejected as
missing — "tok" is passed to verify. -/
theorem C4_token_extraction_witness :
    (authMiddleware (fun _ => none) (some "bearer tok")).2 = ["tok"] :=
  (C4_token_extraction (fun _ => none) "bearer tok" "tok").2.2.2.2.2 (by decide)

/-- Counterexample to C4 as stated: for the non-Bearer header
"Basic user:password" the middleware does not fail with MissingToken; it
extracts "user:password" and invokes verify with it (yielding
InvalidToken when verification throws). -/
theorem C4_non_bearer_counterexample :
    authMiddleware (fun _ => none) (some "Basic user:password") =
      (AuthOutcome.invalid, ["user:password"]) := by decide

/-! ## C5 — the role gate -/

/-- C5: the role gate distinguishes three cases — absent principal, null
roles or roles of the wrong shape reject with 403 "Access denied. No
roles found."; roles present but lacking the required role reject with
403 "Access denied."; and when the required role is present (duplicates
and extra roles ignored) the request is forwarded unmodified with the
downstream handler invoked exactly once. -/
theorem C5_role_gate (α : Type) (required : String) (req : GateReq α) :
    (req.user = none →
      checkRole required req = .reject 403 "Access denied. No roles found.") ∧
    (∀ u, req.user = some u → u.roles = RolesValue.null →
      checkRole required req = .reject 403 "Access denied. No roles found.") ∧
    (∀ u raw, req.user = some u → u.roles = RolesValue.notArray raw →
      checkRole required req = .reject 403 "Access denied. No roles found.") ∧
    (∀ u rs, req.user = some u → u.roles = RolesValue.arr rs → required ∉ rs →
      checkRole required req = .reject 403 "Access denied.") ∧
    (∀ u rs, req.user = some u → u.roles = RolesValue.arr rs → required ∈ rs →
      checkRole required req = .forward req ∧
        nextCalls (checkRole required req) = 1) := by
  refine ⟨?_, ?_, ?_, ?_, ?_⟩
  · intro h
    simp [checkRole, h]
  · intro u hu hr
    simp [checkRole, hu, hr]
  · intro u raw hu hr
    simp [checkRole, hu, hr]
  · intro u rs hu hr hmem
    simp [checkRole, hu, hr, hmem]
  · intro u rs hu hr hmem
    simp [checkRole, nextCalls, hu, hr, hmem]

/-- Witness for C5: a principal holding ["user", "admin"] passes the
"admin" gate, forwarded unmodified with one downstream call. -/
theorem C5_role_gate_witness :
    checkRole "admin" demoGateReq = .forward demoGateReq ∧
      nextCalls (checkRole "admin" demoGateReq) = 1 :=
  (C5_role_gate Nat "admin" demoGateReq).2.2.2.2
    { id := some "u1", roles := .arr ["user", "admin"] }
    ["user", "admin"] rfl rfl (by decide)

/-! ## C6 — ownership check in the create controllers -/

/-- C6: for every Post or Comment creation request, if no principal is
attached or the principal's id differs from the body's `author` field
(an undefined id differs from every author), the controller responds
403 `{message: "Author mismatch"}` with the store unchanged, and the
result is the same for every service — the create service is never
invoked, so no store mutation occurs. -/
theorem C6_author_mismatch (s : Store) (user : Option ReqUser)
    (pin : PostInput) (cin : CommentInput) (pid cid : String) :
    ((user = none ∨ ∀ u, user = some u → u.id ≠ some pin.author) →
      ∀ svc, PostController.create svc s user pin pid =
        (s, .msg 403 "Author mismatch")) ∧
    ((user = none ∨ ∀ u, user = some u → u.id ≠ some cin.author) →
      ∀ svc, CommentController.create svc s user cin cid =
        (s, .msg 403 "Author mismatch")) := by
  constructor
  · rintro (h | h) svc
    · simp [PostController.create, h]
    · cases user with
      | none => simp [PostController.create]
      | some u => simp [PostController.create, h u rfl]
  · rintro (h | h) svc
    · simp [CommentController.create, h]
    · cases user with
      | none => simp [CommentController.create]
      | some u => simp [CommentController.create, h u rfl]

/-- Witness for C6: with the real post service and a principal whose id
is someone else's, creation is rejected and the store untouched. -/
theorem C6_author_mismatch_witness :
    PostController.create PostService.create delStore (some ⟨some "u2"⟩)
        ⟨"t", "b", "u1", "g", []⟩ "p9" =
      (delStore, .msg 403 "Author mismatch") :=
  (C6_author_mismatch delStore (some ⟨some "u2"⟩) ⟨"t", "b", "u1", "g", []⟩
    ⟨"x", "u1", "p1"⟩ "p9" "c9").1
    (Or.inr (by intro u hu; cases hu; decide)) PostService.create

/-! ## C7 — login failure indistinguishability and token issuance -/

/-- C7: `login(email, password)` fails with the identical error — same
kind and message, `ReferenceError("Not Authorized")` — both when no user
with the email exists and when the password comparison fails, so the two
causes are indistinguishable to the caller; on a successful comparison
it returns `{ id, roles, token }` where the token is signed over the
payload `{ id, roles }` with a 1-hour expiry. -/
theorem C7_login_behavior (cmp : String → String → Bool)
    (sign : TokenPayload → String → String → String) (envSecret : Option String)
    (s : Store) (email pw : String) :
    (UserService.findByEmail s email = none →
      AuthService.login cmp sign envSecret s email pw = .error ⟨"Not Authorized"⟩) ∧
    (∀ u, UserService.findByEmail s email = some u → cmp pw u.password = false →
      AuthService.login cmp sign envSecret s email pw = .error ⟨"Not Authorized"⟩) ∧
    (∀ u, UserService.findByEmail s email = some u → cmp pw u.password = true →
      AuthService.login cmp sign envSecret s email pw =
        .ok { id := u.id, roles := u.roles,
              token := sign { id := u.id, roles := u.roles } (secretOf envSecret) "1h" }) := by
  refine ⟨?_, ?_, ?_⟩
  · intro h
    simp [AuthService.login, h]
  · intro u hu hcmp
    simp [AuthService.login, hu, hcmp]
  · intro u hu hcmp
    simp [AuthService.login, AuthService.generateToken, hu, hcmp]

/-- Witness for C7: logging in the demo user with the matching password
yields its id, roles, and the token signed over them. -/
theorem C7_login_behavior_witness :
    AuthService.login (fun a b => a == b) (fun _ _ _ => "tok") none delStore
        "ana@demo.com" "h" =
      .ok { id := "u1", roles := ["user"], token := "tok" } := by
  have h := (C7_login_behavior (fun a b => a == b) (fun _ _ _ => "tok") none
    delStore "ana@demo.com" "h").2.2 demoUser (by decide) (by decide)
  exact h

/-! ## C8 — the field validator -/

/-- C8: when the declared rules produce N violations (reported in
declaration order by the validation library), the validator responds 400
`{message: "Validation errors", errors: [...]}` with exactly N entries of
shape `{field, message, value}`, the i-th entry formatted from the i-th
violation; with zero violations the downstream handler is invoked — the
outcome is `next` — with the request unmodified. -/
theorem C8_validation_envelope (α : Type) (errors : List ValErr) (req : α) :
    (errors = [] → handleValidationErrors errors req = .next req) ∧
    (errors ≠ [] →
      handleValidationErrors errors req =
        .respond 400 "Validation errors" (errors.map formatError) ∧
      (errors.map formatError).length = errors.length ∧
      ∀ i : Nat, (errors.map formatError).get? i = (errors.get? i).map formatError) := by
  constructor
  · intro h
    simp [handleValidationErrors, h]
  · intro h
    have hne : errors.isEmpty = false := by
      cases errors with
      | nil => exact absurd rfl h
      | cons e es => rfl
    refine ⟨?_, by simp, ?_⟩
    · simp [handleValidationErrors, hne]
    · intro i
      simp [List.get?_eq_getElem?, List.getElem?_map]

/-- Witness for C8: one field violation becomes exactly one formatted
entry in a 400 response. -/
theorem C8_validation_envelope_witness :
    handleValidationErrors [demoValErr] (0 : Nat) =
      .respond 400 "Validation errors"
        [{ field := some "email", message := some "Email is required",
           value := some "" }] := by
  have h := ((C8_validation_envelope Nat [demoValErr] 0).2 (by simp)).1
  rw [h]
  rfl

/-! ## C9 — genre lookup -/

/-- C9 (amended): `getByGenre(genre)` matches `genre` as a
case-insensitive regular-expression pattern anywhere in the `genre`
field of non-deleted posts — which coincides with case-insensitive
substring matching exactly when the pattern contains no regex
metacharacter — requires no existence precondition, and when no post
matches it returns an empty list, never an error. -/
theorem C9_get_by_genre (s : Store) (genre : String) (toks : List GTok)
    (hp : parseSimplePattern genre = some toks) :
    (∀ res, PostService.getByGenre s genre = some res →
      ∀ p ∈ res, p.deletedAt = none ∧ searchMatch toks p.genre.data = true) ∧
    (∀ p ∈ s.posts, p.deletedAt = none → searchMatch toks p.genre.data = true →
      ∃ res, PostService.getByGenre s genre = some res ∧ p ∈ res) ∧
    ((∀ p ∈ s.posts, ¬(p.deletedAt = none ∧ searchMatch toks p.genre.data = true)) →
      PostService.getByGenre s genre = some []) ∧
    ((genre.data.all fun c => !metachar c) = true →
      ∀ hay : String, searchMatch toks hay.data = substringCI genre hay) := by
  have hres : PostService.getByGenre s genre =
      some (s.posts.filter fun p => searchMatch toks p.genre.data && p.deletedAt == none) := by
    simp [PostService.getByGenre, hp]
  refine ⟨?_, ?_, ?_, ?_⟩
  · intro res h p hpres
    rw [hres] at h
    cases h
    obtain ⟨hmem, hpred⟩ := List.mem_filter.mp hpres
    rw [Bool.and_eq_true, beq_iff_eq] at hpred
    exact ⟨hpred.2, hpred.1⟩
  · intro p hps hdel hmatch
    refine ⟨_, hres, ?_⟩
    exact List.mem_filter.mpr ⟨hps, by simp [hmatch, hdel]⟩
  · intro hnone
    rw [hres]
    congr 1
    rw [List.filter_eq_nil_iff]
    intro p hps
    intro hcontra
    rw [Bool.and_eq_true, beq_iff_eq] at hcontra
    exact hnone p hps ⟨hcontra.2, hcontra.1⟩
  · intro hmeta hay
    have hlit : toks = genre.data.map GTok.lit := parseToks_all_lit hp hmeta
    rw [hlit, searchMatch_map_lit]

/-- Witness for C9: the pattern "qq" matches no post of `xyzStore`, so
the result is the empty list. -/
theorem C9_get_by_genre_witness :
    PostService.getByGenre xyzStore "qq" = some [] :=
  (C9_get_by_genre xyzStore "qq" [GTok.lit 'q', GTok.lit 'q']
    (by decide)).2.2.1 (by decide)

/-- Counterexample to C9 as stated: "x.z" is not a (case-insensitive)
substring of "xyz", yet `getByGenre "x.z"` returns the post whose genre
is "xyz", because the input is used as a regex pattern in which `.`
matches any character. -/
theorem C9_regex_counterexample :
    substringCI "x.z" "xyz" = false ∧
    PostService.getByGenre xyzStore "x.z" = some [xyzPost] := by decide
